import Mathlib

/-!
Verification of the NCBI_blast translation pipeline.

This file gives a shallow embedding of the translation subsystem of the
repository (the modules under src/utils/translation plus the legacy
src/utils/translation_data_manager.py) and settles a set of behavioural
claims about it, one theorem per claim.  Python dictionaries are modelled as insertion-ordered
association lists with replace-in-place update, Python strings as Lean
strings (lists of unicode code points), and the regular-expression uses
of the source as a small backtracking matcher with Python's
leftmost/greedy semantics.  File I/O is modelled by passing lists of CSV
rows explicitly; the AI client is a parameter of type Except.
-/

/-- Whitespace characters recognised by Python str.strip and the regex
class for backslash-s (the inputs in this development are ASCII plus CJK,
so the ASCII whitespace set is faithful). -/
def isPyWS (c : Char) : Bool :=
  c = ' ' || c = '\t' || c = '\n' || c = '\r' || c = '\x0b' || c = '\x0c'

/-- ASCII lower-casing of one character, the behaviour of Python
str.lower on the ASCII/CJK strings this code manipulates (written as an
explicit table to keep case analysis elementary). -/
def asciiLower (c : Char) : Char :=
  if c = 'A' then 'a' else if c = 'B' then 'b' else if c = 'C' then 'c'
  else if c = 'D' then 'd' else if c = 'E' then 'e' else if c = 'F' then 'f'
  else if c = 'G' then 'g' else if c = 'H' then 'h' else if c = 'I' then 'i'
  else if c = 'J' then 'j' else if c = 'K' then 'k' else if c = 'L' then 'l'
  else if c = 'M' then 'm' else if c = 'N' then 'n' else if c = 'O' then 'o'
  else if c = 'P' then 'p' else if c = 'Q' then 'q' else if c = 'R' then 'r'
  else if c = 'S' then 's' else if c = 'T' then 't' else if c = 'U' then 'u'
  else if c = 'V' then 'v' else if c = 'W' then 'w' else if c = 'X' then 'x'
  else if c = 'Y' then 'y' else if c = 'Z' then 'z' else c

/-- ASCII upper-casing of one character. -/
def asciiUpper (c : Char) : Char :=
  if 'a' ≤ c ∧ c ≤ 'z' then Char.ofNat (c.toNat - 32) else c

/-- Python str.lower. -/
def pyLower (s : String) : String := String.mk (s.data.map asciiLower)

/-- Python str.strip on a list of characters: drop whitespace from both
ends. -/
def pyStripList (l : List Char) : List Char :=
  ((l.dropWhile isPyWS).reverse.dropWhile isPyWS).reverse

/-- Python str.strip. -/
def pyStrip (s : String) : String := String.mk (pyStripList s.data)

/-- List prefix test (used for Python startswith and substring tests). -/
def listIsPrefix : List Char → List Char → Bool
  | [], _ => true
  | _ :: _, [] => false
  | a :: as, b :: bs => a = b && listIsPrefix as bs

/-- Python substring containment, pattern-first: listInfix pat hay decides
pat in hay (the empty pattern is contained everywhere, as in Python). -/
def listInfix (pat : List Char) : List Char → Bool
  | [] => listIsPrefix pat []
  | c :: tl => listIsPrefix pat (c :: tl) || listInfix pat tl

/-- Python operator in for strings: strContains hay pat is pat in hay. -/
def strContains (hay pat : String) : Bool := listInfix pat.data hay.data

/-- Python str.startswith. -/
def pyStartsWith (s prefixStr : String) : Bool := listIsPrefix prefixStr.data s.data

/-- Find the first occurrence of a (nonempty) literal pattern and split
there: helper for Python str.split(sep) and str.replace. Returns the text
before the first occurrence and the text after it. -/
def splitOnceList (pat : List Char) : List Char → Option (List Char × List Char)
  | [] => if pat = [] then some ([], []) else none
  | c :: tl =>
    if listIsPrefix pat (c :: tl) then some ([], (c :: tl).drop pat.length)
    else
      match splitOnceList pat tl with
      | some (pre, post) => some (c :: pre, post)
      | none => none

/-- Python str.split(sep) with a literal separator, keeping empty pieces. -/
def splitLitGo (pat : List Char) : Nat → List Char → List (List Char)
  | 0, l => [l]
  | n + 1, l =>
    match splitOnceList pat l with
    | some (pre, post) => pre :: splitLitGo pat n post
    | none => [l]

/-- Python str.split(sep) on strings. -/
def pySplitLit (s sep : String) : List String :=
  (splitLitGo sep.data (s.data.length + 1) s.data).map String.mk

/-- Python str.replace(old, new) replacing every occurrence, left to
right, non-overlapping. -/
def replaceAllGo (pat repl : List Char) : Nat → List Char → List Char
  | 0, l => l
  | n + 1, l =>
    match splitOnceList pat l with
    | some (pre, post) => pre ++ repl ++ replaceAllGo pat repl n post
    | none => l

/-- Python str.replace on strings (pattern assumed nonempty, as in the
source). -/
def pyReplace (s old new : String) : String :=
  String.mk (replaceAllGo old.data new.data (s.data.length + 1) s.data)

/-- Membership of a character in the comma-or-whitespace separator class
of the source regex re.split on the class comma-backslash-s. -/
def isCommaWS (c : Char) : Bool := c = ',' || isPyWS c

/-- Python re.split on a one-character-class-plus pattern: split on runs
of separator characters, keeping the empty leading/trailing pieces that
re.split produces. -/
def splitRunsGo (sep : Char → Bool) : Nat → List Char → List (List Char)
  | 0, _ => []
  | n + 1, l =>
    let tok := l.takeWhile (fun c => !sep c)
    let rest := l.dropWhile (fun c => !sep c)
    tok ::
      match rest with
      | [] => []
      | _ :: tl => splitRunsGo sep n (tl.dropWhile sep)

/-- re.split over runs of commas and whitespace, as used by the source. -/
def reSplitCommaWS (s : String) : List String :=
  (splitRunsGo isCommaWS (s.data.length + 1) s.data).map String.mk

/-- Python str.split() with no argument: whitespace-delimited tokens, no
empties. -/
def pySplitWSGo : Nat → List Char → List (List Char)
  | 0, _ => []
  | n + 1, l =>
    match l.dropWhile isPyWS with
    | [] => []
    | rest =>
      rest.takeWhile (fun c => !isPyWS c) ::
        pySplitWSGo n (rest.dropWhile (fun c => !isPyWS c))

/-- Python str.split() on strings. -/
def pySplitWS (s : String) : List String :=
  (pySplitWSGo (s.data.length + 1) s.data).map String.mk

/-- Python str.count of a single character. -/
def pyCountChar (s : String) (c : Char) : Nat := s.data.count c

/-- Drop the first n characters of a string (Python slicing s[n:]). -/
def pyDrop (s : String) (n : Nat) : String := String.mk (s.data.drop n)

/-- Insertion-ordered association list update with Python dict semantics:
replace the value in place if the key exists, else append. -/
def insertP {α : Type} : List (String × α) → String → α → List (String × α)
  | [], k, v => [(k, v)]
  | p :: tl, k, v => if p.1 = k then (k, v) :: tl else p :: insertP tl k v

/-- Association list lookup with Python dict semantics. -/
def lookupP {α : Type} : List (String × α) → String → Option α
  | [], _ => none
  | p :: tl, k => if p.1 = k then some p.2 else lookupP tl k

theorem lookupP_insertP_self {α : Type} (m : List (String × α)) (k : String) (v : α) :
    lookupP (insertP m k v) k = some v := by
  induction m with
  | nil => simp [insertP, lookupP]
  | cons p tl ih =>
    by_cases h : p.1 = k
    · simp [insertP, lookupP, h]
    · simp [insertP, lookupP, h, ih]

theorem lookupP_insertP_ne {α : Type} (m : List (String × α)) (k k' : String) (v : α)
    (h : k ≠ k') : lookupP (insertP m k v) k' = lookupP m k' := by
  induction m with
  | nil => simp [insertP, lookupP, h]
  | cons p tl ih =>
    by_cases hp : p.1 = k
    · simp [insertP, lookupP, hp, h]
    · simp [insertP, lookupP, hp, ih]

/-- Word characters for the Python regex word-boundary: ASCII
alphanumerics, underscore, and CJK ideographs (the only non-ASCII word
characters appearing in this code base). -/
def isWordChar (c : Char) : Bool :=
  c.isAlphanum || c = '_' || (0x4E00 ≤ c.toNat && c.toNat ≤ 0x9FFF)

/-- Abstract syntax of the regular expressions used by the source,
with Python semantics: ordered alternation, greedy/lazy bounded
repetition, capturing groups, lookahead, word boundary and end anchor. -/
inductive RE where
  | eps : RE
  | lit : Char → RE
  | cls : Bool → List (Char × Char) → RE
  | dot : RE
  | seq : RE → RE → RE
  | alt : RE → RE → RE
  | rep : Nat → Option Nat → Bool → RE → RE
  | grp : Nat → RE → RE
  | look : Bool → RE → RE
  | wb : RE
  | eos : RE
deriving Repr

/-- Character comparison, optionally ASCII-case-insensitive (the
re.IGNORECASE flag of the source on its ASCII patterns). -/
def charEq (ci : Bool) (c d : Char) : Bool :=
  if ci then asciiLower c = asciiLower d else c = d

/-- Membership in a list of character ranges. -/
def memRanges (rs : List (Char × Char)) (c : Char) : Bool :=
  rs.any (fun r => r.1 ≤ c && c ≤ r.2)

/-- Character-class test with Python IGNORECASE semantics: a character
matches a class if it or one of its case variants is in the ranges. -/
def clsMatch (ci neg : Bool) (rs : List (Char × Char)) (c : Char) : Bool :=
  let m :=
    if ci then memRanges rs c || memRanges rs (asciiLower c) || memRanges rs (asciiUpper c)
    else memRanges rs c
  if neg then !m else m

/-- Capture environment: group index to captured characters, most recent
first (re group values are the last successful capture). -/
abbrev Caps := List (Nat × List Char)

/-- Result threaded through the matcher continuations: the character just
before the current position (for word boundaries), the remaining input,
and the captures. -/
abbrev MRes := Option (Option Char × List Char × Caps)

/-- Backtracking matcher in continuation-passing style with Python's
leftmost/greedy preferences. Fuel bounds the depth of the search; all
concrete evaluations in this file stay far below the bound. -/
def reMatch (ci : Bool) :
    Nat → RE → Option Char → List Char → Caps →
    (Option Char → List Char → Caps → MRes) → MRes
  | 0, _, _, _, _, _ => none
  | _ + 1, .eps, prev, rest, caps, k => k prev rest caps
  | _ + 1, .lit c, _, rest, caps, k =>
    match rest with
    | d :: tl => if charEq ci c d then k (some d) tl caps else none
    | [] => none
  | _ + 1, .cls neg rs, _, rest, caps, k =>
    match rest with
    | d :: tl => if clsMatch ci neg rs d then k (some d) tl caps else none
    | [] => none
  | _ + 1, .dot, _, rest, caps, k =>
    match rest with
    | d :: tl => if d = '\n' then none else k (some d) tl caps
    | [] => none
  | fuel + 1, .seq a b, prev, rest, caps, k =>
    reMatch ci fuel a prev rest caps (fun p r c => reMatch ci fuel b p r c k)
  | fuel + 1, .alt a b, prev, rest, caps, k =>
    match reMatch ci fuel a prev rest caps k with
    | some res => some res
    | none => reMatch ci fuel b prev rest caps k
  | fuel + 1, .rep lo hi lz a, prev, rest, caps, k =>
    if lo ≠ 0 then
      reMatch ci fuel a prev rest caps (fun p r c =>
        reMatch ci fuel (.rep (lo - 1) (hi.map (· - 1)) lz a) p r c k)
    else
      match hi with
      | some 0 => k prev rest caps
      | _ =>
        let more := reMatch ci fuel a prev rest caps (fun p r c =>
          if r.length = rest.length then none
          else reMatch ci fuel (.rep 0 (hi.map (· - 1)) lz a) p r c k)
        if lz then
          match k prev rest caps with
          | some res => some res
          | none => more
        else
          match more with
          | some res => some res
          | none => k prev rest caps
  | fuel + 1, .grp i a, prev, rest, caps, k =>
    reMatch ci fuel a prev rest caps (fun p r c =>
      k p r ((i, rest.take (rest.length - r.length)) :: c))
  | fuel + 1, .look neg a, prev, rest, caps, k =>
    match reMatch ci fuel a prev rest caps (fun p r c => some (p, r, c)) with
    | some _ => if neg then none else k prev rest caps
    | none => if neg then k prev rest caps else none
  | _ + 1, .wb, prev, rest, caps, k =>
    let lw := match prev with | some c => isWordChar c | none => false
    let rw := match rest with | c :: _ => isWordChar c | [] => false
    if lw ≠ rw then k prev rest caps else none
  | _ + 1, .eos, prev, rest, caps, k =>
    match rest with
    | [] => k prev rest caps
    | _ :: _ => none

/-- Fuel used for every match attempt; far above the search depth any
pattern in this file reaches on the inputs evaluated here. -/
def reFuel : Nat := 4000

/-- One anchored match attempt (Python re.match at a given position). -/
def reMatchTop (ci : Bool) (re : RE) (prev : Option Char) (l : List Char) : MRes :=
  reMatch ci reFuel re prev l [] (fun p r c => some (p, r, c))

/-- Python re.search: slide the anchored matcher over every start
position, leftmost match wins. Returns the input suffix at the match
start together with the matcher result. -/
def reSearchFrom (ci : Bool) (re : RE) :
    Option Char → List Char → Option (List Char × Option Char × List Char × Caps)
  | prev, l =>
    match reMatchTop ci re prev l with
    | some (p, r, caps) => some (l, p, r, caps)
    | none =>
      match l with
      | [] => none
      | c :: tl => reSearchFrom ci re (some c) tl

/-- Look up a capture group. -/
def capsLookup (caps : Caps) (i : Nat) : Option (List Char) :=
  match caps.find? (fun p => p.1 = i) with
  | some p => some p.2
  | none => none

/-- Python re.findall for a pattern with exactly one capturing group:
repeated non-overlapping leftmost search collecting group 1, advancing by
one position after an empty match. -/
def reFindAllGo (ci : Bool) (re : RE) : Nat → Option Char → List Char → List String → List String
  | 0, _, _, acc => acc.reverse
  | n + 1, prev, l, acc =>
    match reSearchFrom ci re prev l with
    | none => acc.reverse
    | some (startL, p, r, caps) =>
      let g1 := String.mk ((capsLookup caps 1).getD [])
      if r.length = startL.length then
        match r with
        | [] => (g1 :: acc).reverse
        | c :: tl => reFindAllGo ci re n (some c) tl (g1 :: acc)
      else reFindAllGo ci re n p r (g1 :: acc)

/-- Python re.findall (single capturing group). -/
def reFindAll (ci : Bool) (re : RE) (s : String) : List String :=
  reFindAllGo ci re (s.data.length + 2) none s.data []

/-- Python re.match at the start of a string, returning the first n
capture groups (None for a group that did not participate). -/
def reMatchGroups (ci : Bool) (re : RE) (s : String) (n : Nat) :
    Option (List (Option String)) :=
  match reMatchTop ci re none s.data with
  | some (_, _, caps) =>
    some ((List.range n).map (fun i => (capsLookup caps (i + 1)).map String.mk))
  | none => none

/-- Python re.search returning the first n capture groups. -/
def reSearchGroups (ci : Bool) (re : RE) (s : String) (n : Nat) :
    Option (List (Option String)) :=
  match reSearchFrom ci re none s.data with
  | some (_, _, _, caps) =>
    some ((List.range n).map (fun i => (capsLookup caps (i + 1)).map String.mk))
  | none => none

/-- Sequence a list of regexes. -/
def rCat (l : List RE) : RE := l.foldr RE.seq RE.eps

/-- Literal string regex. -/
def rLit (s : String) : RE := rCat (s.data.map RE.lit)

/-- First-match alternation over a nonempty list. -/
def rAlts : List RE → RE
  | [] => RE.eps
  | [r] => r
  | r :: rs => RE.alt r (rAlts rs)

/-- Greedy plus. -/
def rPlus (r : RE) : RE := RE.rep 1 none false r

/-- Greedy star. -/
def rStar (r : RE) : RE := RE.rep 0 none false r

/-- Greedy option. -/
def rOpt (r : RE) : RE := RE.rep 0 (some 1) false r

/-- The class A-Z. -/
def rAZ : RE := RE.cls false [('A', 'Z')]

/-- The class a-z. -/
def raz : RE := RE.cls false [('a', 'z')]

/-- The regex whitespace class backslash-s. -/
def rWS : RE :=
  RE.cls false [(' ', ' '), ('\t', '\t'), ('\n', '\n'), ('\r', '\r'), ('\x0b', '\x0b'), ('\x0c', '\x0c')]

/-- The digit class backslash-d. -/
def rDigit : RE := RE.cls false [('0', '9')]

/-- The identifier class A-Za-z0-9 dash dot underscore of the strain,
isolate and clone patterns. -/
def rIdCls : RE :=
  RE.cls false [('A', 'Z'), ('a', 'z'), ('0', '9'), ('-', '-'), ('.', '.'), ('_', '_')]

/-- The alphanumeric class A-Za-z0-9. -/
def rAlnum : RE := RE.cls false [('A', 'Z'), ('a', 'z'), ('0', '9')]

/-- Species-name subpattern of the special and common patterns: one
capital, lowercase letters, optionally whitespace and one more lowercase
word. -/
def rSpeciesName : RE := rCat [rAZ, rPlus raz, rOpt (rCat [rPlus rWS, rPlus raz])]

/-- Subpattern strain whitespace identifier. -/
def rStrainId : RE := rCat [rLit "strain", rPlus rWS, rPlus rIdCls]

/-- Subpattern isolate whitespace identifier. -/
def rIsolateId : RE := rCat [rLit "isolate", rPlus rWS, rPlus rIdCls]

/-- Subpattern clone whitespace identifier. -/
def rCloneId : RE := rCat [rLit "clone", rPlus rWS, rPlus rIdCls]

/-- SpecialPatternTranslator pattern 1: species group, strain-id group,
rest-of-line group. -/
def spPat1 : RE :=
  rCat [RE.grp 1 rSpeciesName, rPlus rWS, RE.grp 2 rStrainId, rPlus rWS,
    RE.grp 3 (rPlus RE.dot)]

/-- SpecialPatternTranslator pattern 2: species group, greedy middle
group, comma, isolate-id group. -/
def spPat2 : RE :=
  rCat [RE.grp 1 rSpeciesName, rPlus rWS, RE.grp 2 (rPlus RE.dot), rStar rWS,
    RE.lit ',', rStar rWS, RE.grp 3 rIsolateId]

/-- SpecialPatternTranslator pattern 3: genus-sp group, strain-id group,
rest group. -/
def spPat3 : RE :=
  rCat [RE.grp 1 (rCat [rAZ, rPlus raz, rLit " sp."]), rPlus rWS,
    RE.grp 2 rStrainId, rPlus rWS, RE.grp 3 (rPlus RE.dot)]

/-- SpecialPatternTranslator pattern 4: optional uncultured group,
species group, clone-id group, rest group. -/
def spPat4 : RE :=
  rCat [rOpt (RE.grp 1 (rCat [RE.cls false [('U', 'U'), ('u', 'u')], rLit "ncultured", rPlus rWS])),
    RE.grp 2 rSpeciesName, rPlus rWS, RE.grp 3 rCloneId, rPlus rWS,
    RE.grp 4 (rPlus RE.dot)]

/-- Subpattern 16S ribosomal RNA with optional gene. -/
def r16SRibo : RE :=
  rCat [rLit "16S", rPlus rWS, rLit "ribosomal", rPlus rWS, rLit "RNA",
    rOpt (rCat [rPlus rWS, rLit "gene"])]

/-- Subpattern partial sequence or complete genome. -/
def rPartialOrComplete : RE :=
  RE.alt (rCat [rLit "partial", rPlus rWS, rLit "sequence"])
    (rCat [rLit "complete", rPlus rWS, rLit "genome"])

/-- BiologyTranslator common pattern 1: species, strain id, 16S phrase,
comma, sequence type (4 groups). -/
def cpPat1 : RE :=
  rCat [RE.grp 1 rSpeciesName, rPlus rWS, RE.grp 2 rStrainId, rPlus rWS,
    RE.grp 3 r16SRibo, rStar rWS, RE.lit ',', rStar rWS, RE.grp 4 rPartialOrComplete]

/-- BiologyTranslator common pattern 2: species, 16S phrase, comma,
sequence type (3 groups). -/
def cpPat2 : RE :=
  rCat [RE.grp 1 rSpeciesName, rPlus rWS, RE.grp 2 r16SRibo, rStar rWS,
    RE.lit ',', rStar rWS, RE.grp 3 rPartialOrComplete]

/-- BiologyTranslator common pattern 3: species, partial 16S rRNA gene,
comma, isolate id (3 groups). -/
def cpPat3 : RE :=
  rCat [RE.grp 1 rSpeciesName, rPlus rWS,
    RE.grp 2 (rCat [rLit "partial", rPlus rWS, rLit "16S", rPlus rWS, rLit "rRNA", rPlus rWS, rLit "gene"]),
    rStar rWS, RE.lit ',', rStar rWS, RE.grp 3 rIsolateId]

/-- BiologyTranslator common pattern 4: species, strain id, 16S phrase
(3 groups). -/
def cpPat4 : RE :=
  rCat [RE.grp 1 rSpeciesName, rPlus rWS, RE.grp 2 rStrainId, rPlus rWS,
    RE.grp 3 r16SRibo]

/-- Lazy plus. -/
def rLazyPlus (r : RE) : RE := RE.rep 1 none true r

/-- Lazy star. -/
def rLazyStar (r : RE) : RE := RE.rep 0 none true r

/-- TermExtractor pattern: word boundary, Uncultured genus sp phrase
(one capturing group), word boundary. -/
def exUncultured : RE :=
  rCat [RE.wb,
    RE.grp 1 (rCat [rLit "Uncultured", rPlus rWS, rAZ, rPlus raz,
      rCat [rPlus rWS, rLit "sp", rOpt (RE.lit '.')]]),
    RE.wb]

/-- Lookahead body of the species-name TermExtractor pattern: whitespace
then one of the guard keywords with a word boundary, or a comma, or
optional whitespace then end of string. -/
def exSpeciesLook : RE :=
  rAlts [rCat [rPlus rWS,
      rAlts [rLit "16S", rLit "23S", rLit "gene", rLit "RNA", rLit "ITS",
        rLit "partial", rLit "complete", rLit "strain", rLit "isolate", rLit "clone"],
      RE.wb],
    RE.lit ',',
    rCat [rStar rWS, RE.eos]]

/-- TermExtractor species-name pattern: capital word plus one or two
lowercase words, word boundary, guarded lookahead. -/
def exSpecies : RE :=
  rCat [RE.wb,
    RE.grp 1 (rCat [rAZ, rPlus raz, RE.rep 1 (some 2) false (rCat [rPlus rWS, rPlus raz])]),
    RE.wb, RE.look false exSpeciesLook]

/-- TermExtractor strain-number pattern. -/
def exStrain : RE := RE.grp 1 (rCat [rLit "strain", rPlus rWS, rAlnum, rStar rIdCls])

/-- TermExtractor isolate pattern. -/
def exIsolate : RE := RE.grp 1 (rCat [rLit "isolate", rPlus rWS, rAlnum, rStar rIdCls])

/-- TermExtractor 16S ribosomal RNA gene pattern. -/
def ex16S : RE := RE.grp 1 r16SRibo

/-- TermExtractor 16S ribosomal RNA pattern with negative lookahead for
gene. -/
def ex16SNoGene : RE :=
  rCat [RE.grp 1 (rCat [rLit "16S", rPlus rWS, rLit "ribosomal", rPlus rWS, rLit "RNA"]),
    RE.look true (rCat [rPlus rWS, rLit "gene"])]

/-- TermExtractor partial sequence pattern. -/
def exPartialSeq : RE := RE.grp 1 (rCat [rLit "partial", rPlus rWS, rLit "sequence"])

/-- TermExtractor complete genome pattern. -/
def exCompleteGenome : RE := RE.grp 1 (rCat [rLit "complete", rPlus rWS, rLit "genome"])

/-- TermExtractor plasmid vector pattern. -/
def exPlasmidVector : RE := RE.grp 1 (rCat [rLit "plasmid", rPlus rWS, rLit "vector"])

/-- TermExtractor partial 16S rRNA gene pattern. -/
def exPartial16S : RE :=
  RE.grp 1 (rCat [rLit "partial", rPlus rWS, rLit "16S", rPlus rWS, rLit "rRNA", rPlus rWS, rLit "gene"])

/-- TermExtractor clone pattern. -/
def exClone : RE := RE.grp 1 (rCat [rLit "clone", rPlus rWS, rAlnum, rStar rIdCls])

/-- TermExtractor gene-for-16S-rRNA pattern. -/
def exGeneFor : RE := RE.grp 1 (rLit "gene for 16S rRNA")

/-- TermExtractor chromosome pattern. -/
def exChromosome : RE := RE.grp 1 (rLit "chromosome")

/-- TermExtractor generic ribosomal RNA gene pattern with word
boundaries. -/
def exRiboGene : RE :=
  rCat [RE.wb, RE.grp 1 (rCat [rLit "ribosomal", rPlus rWS, rLit "RNA", rPlus rWS, rLit "gene"]), RE.wb]

/-- The ordered TermExtractor pattern list with each pattern's term type
and Chinese category tag, exactly as in extract_and_store_key_terms. -/
def extractorPatterns : List (RE × String × String) :=
  [(exUncultured, "species", "菌种"),
   (exSpecies, "species", "菌种"),
   (exStrain, "strain", "菌株"),
   (exIsolate, "isolate", "分离株"),
   (ex16S, "gene", "基因"),
   (ex16SNoGene, "gene", "基因"),
   (exPartialSeq, "sequence", "序列"),
   (exCompleteGenome, "genome", "基因组"),
   (exPlasmidVector, "plasmid", "质粒"),
   (exPartial16S, "gene", "基因"),
   (exClone, "clone", "克隆"),
   (exGeneFor, "gene", "基因"),
   (exChromosome, "chromosome", "染色体"),
   (exRiboGene, "gene", "基因")]

/-- Negated character class of the species-extraction regexes: fullwidth
or ASCII opening parenthesis, the characters 株 and 克, digits, and
whitespace. -/
def rNotSpeciesStop : RE :=
  RE.cls true [('（', '（'), ('(', '('), ('株', '株'), ('克', '克'), ('0', '9'),
    (' ', ' '), ('\t', '\t'), ('\n', '\n'), ('\r', '\r'), ('\x0b', '\x0b'), ('\x0c', '\x0c')]

/-- Negated class additionally excluding ASCII letters, used by the
general species-extraction regex. -/
def rNotSpeciesStopOrLatin : RE :=
  RE.cls true [('0', '9'), ('a', 'z'), ('A', 'Z'), ('（', '（'), ('(', '('), ('株', '株'),
    ('克', '克'), (' ', ' '), ('\t', '\t'), ('\n', '\n'), ('\r', '\r'), ('\x0b', '\x0b'), ('\x0c', '\x0c')]

/-- Positive class that ends a species name: digit, ASCII letter,
opening parenthesis, 株 or 克. -/
def rSpeciesStop : RE :=
  RE.cls false [('0', '9'), ('a', 'z'), ('A', 'Z'), ('（', '（'), ('(', '('), ('株', '株'), ('克', '克')]

/-- Anchored uncultured-species extraction regex of
extract_species_from_translation. -/
def exuPattern : RE :=
  rCat [RE.grp 1 (rCat [rLit "未培养", rLazyPlus rNotSpeciesStop]),
    rOpt (rCat [RE.lit '（', rLazyStar (RE.cls true [('）', '）')]), RE.lit '）']),
    RE.look false (RE.alt (rCat [rStar rWS, rSpeciesStop]) RE.eos)]

/-- Anchored general species extraction regex of
extract_species_from_translation. -/
def exsPattern : RE :=
  rCat [RE.grp 1 (rLazyPlus rNotSpeciesStopOrLatin),
    RE.look false (RE.alt (rCat [rStar rWS, rSpeciesStop]) RE.eos)]

/-- Anchored backup species extraction regex: two to fifteen characters
that are not whitespace or digits, lazily, ending in 菌, 藻 or 体. -/
def exbPattern : RE :=
  RE.grp 1 (rCat [RE.rep 2 (some 15) true (RE.cls true [('0', '9'), (' ', ' '), ('\t', '\t'), ('\n', '\n'), ('\r', '\r'), ('\x0b', '\x0b'), ('\x0c', '\x0c')]),
    RE.cls false [('菌', '菌'), ('藻', '藻'), ('体', '体')]])

/-- In-memory state of the TranslationDataManager of
src/utils/translation/translation_data_manager.py: the flat
english-to-chinese dict, the per-category dicts (fixed six keys), and
the per-term category dict. The backing CSV file is modelled by the
explicit row lists passed to the load and save functions. -/
structure TranslationDataManager where
  translations : List (String × String)
  translations_by_category : List (String × List (String × String))
  term_categories : List (String × String)
deriving Repr, DecidableEq

/-- The six categories initialised in the manager constructor. -/
def sixCategories : List String :=
  ["species", "genus", "strain", "gene", "sequence", "other"]

/-- The manager state before any rows are loaded. -/
def emptyTDM : TranslationDataManager :=
  { translations := []
    translations_by_category := sixCategories.map (fun c => (c, []))
    term_categories := [] }

/-- Update one category bucket (the category is always an existing key
at every call site, mirroring the guarded Python accesses). -/
def insertCatBucket (bc : List (String × List (String × String))) (cat k v : String) :
    List (String × List (String × String)) :=
  bc.map (fun p => if p.1 = cat then (p.1, insertP p.2 k v) else p)

/-- get_translation without a category: strip the query, look up the
flat dict. -/
def get_translation (tdm : TranslationDataManager) (english_text : String) : Option String :=
  lookupP tdm.translations (pyStrip english_text)

/-- get_translation with a category argument: when the category is a
key of the per-category dicts, look up there, else fall back to the flat
dict (a Python None/empty category is the fallback case). -/
def get_translation_cat (tdm : TranslationDataManager) (english_text category : String) :
    Option String :=
  if category ≠ "" ∧ (tdm.translations_by_category.any (fun p => p.1 = category)) then
    match tdm.translations_by_category.find? (fun p => p.1 = category) with
    | some p => lookupP p.2 (pyStrip english_text)
    | none => none
  else lookupP tdm.translations (pyStrip english_text)

/-- Category normalisation performed by add_translation: strip, replace
empty by other, and coerce anything outside the six fixed categories to
other. -/
def normalizeCat (category : String) : String :=
  let c := pyStrip category
  if sixCategories.contains c then c else "other"

/-- add_translation of the package manager: strip both texts, normalise
the category, and insert into the three dicts when both texts are
nonempty; otherwise do nothing. The save to file that follows the
in-memory update is modelled separately by save_translations. -/
def add_translation (tdm : TranslationDataManager)
    (english_text chinese_text : String) (category : String) : TranslationDataManager :=
  let e := pyStrip english_text
  let c := pyStrip chinese_text
  let cat := normalizeCat category
  if e ≠ "" ∧ c ≠ "" then
    { translations := insertP tdm.translations e c
      term_categories := insertP tdm.term_categories e cat
      translations_by_category := insertCatBucket tdm.translations_by_category cat e c }
  else tdm

/-- update_translation delegates to add_translation in the source. -/
def update_translation (tdm : TranslationDataManager)
    (english_text chinese_text : String) (category : String) : TranslationDataManager :=
  add_translation tdm english_text chinese_text category

/-- contains of the manager. -/
def tdmContains (tdm : TranslationDataManager) (english_text : String) : Bool :=
  (get_translation tdm english_text).isSome

/-- get_all_terms returns (a copy of) the flat dict. -/
def get_all_terms (tdm : TranslationDataManager) : List (String × String) :=
  tdm.translations

/-- One parsed CSV data row (the header row and the csv parsing itself
are outside the model; a missing category column reads as the empty
string, which normalises to other exactly as row.get would). -/
structure CsvRow where
  english : String
  chinese : String
  category : String
deriving Repr, DecidableEq

/-- Load one row of the user data file, as in the per-row body of
load_translations: strip fields, default an empty category to other,
skip rows with a blank english or chinese field, and place rows with an
unknown category in the other bucket with category other (the source
first records the raw category and immediately overwrites it with other
in that branch; the net effect is modelled). -/
def loadRow (tdm : TranslationDataManager) (r : CsvRow) : TranslationDataManager :=
  let e := pyStrip r.english
  let c := pyStrip r.chinese
  let cat0 := pyStrip r.category
  let cat1 := if cat0 = "" then "other" else cat0
  if e ≠ "" ∧ c ≠ "" then
    let catF := if sixCategories.contains cat1 then cat1 else "other"
    { translations := insertP tdm.translations e c
      term_categories := insertP tdm.term_categories e catF
      translations_by_category := insertCatBucket tdm.translations_by_category catF e c }
  else tdm

/-- load_translations over the parsed rows of the user file, starting
from the freshly initialised manager. -/
def load_translations (rows : List CsvRow) : TranslationDataManager :=
  rows.foldl loadRow emptyTDM

/-- Load one row of the predefined-terms file: identical to loadRow
except that the row is merged only when its key is absent from the flat
dict (insert-if-absent). -/
def loadPredefRow (tdm : TranslationDataManager) (r : CsvRow) : TranslationDataManager :=
  let e := pyStrip r.english
  let c := pyStrip r.chinese
  let cat0 := pyStrip r.category
  let cat1 := if cat0 = "" then "other" else cat0
  if e ≠ "" ∧ c ≠ "" then
    if lookupP tdm.translations e = none then
      let catF := if sixCategories.contains cat1 then cat1 else "other"
      { translations := insertP tdm.translations e c
        term_categories := insertP tdm.term_categories e catF
        translations_by_category := insertCatBucket tdm.translations_by_category catF e c }
    else tdm
  else tdm

/-- load_predefined_terms merges the seed rows into an already-loaded
manager. -/
def load_predefined_terms (tdm : TranslationDataManager) (rows : List CsvRow) :
    TranslationDataManager :=
  rows.foldl loadPredefRow tdm

/-- The manager constructor: load the user file, then merge the
predefined seed file. -/
def initStore (userRows seedRows : List CsvRow) : TranslationDataManager :=
  load_predefined_terms (load_translations userRows) seedRows

/-- The rows of the predefined file as save_translations re-emits them:
fields stripped, empty category defaulted to other, blank rows skipped. -/
def seedEmittedRows (seedRows : List CsvRow) : List CsvRow :=
  seedRows.filterMap (fun r =>
    let e := pyStrip r.english
    let c := pyStrip r.chinese
    let cat0 := pyStrip r.category
    let cat1 := if cat0 = "" then "other" else cat0
    if e ≠ "" ∧ c ≠ "" then some ⟨e, c, cat1⟩ else none)

/-- save_translations: the data rows written to the CSV file (after the
header): first every predefined row, re-read from the seed file, then
every in-memory entry whose key was not already written as a predefined
row, with its recorded category (defaulting to other). -/
def save_translations (tdm : TranslationDataManager) (seedRows : List CsvRow) : List CsvRow :=
  let seedOut := seedEmittedRows seedRows
  let written := seedOut.map (fun r => r.english)
  seedOut ++ tdm.translations.filterMap (fun p =>
    if written.contains p.1 then none
    else some ⟨p.1, p.2, (lookupP tdm.term_categories p.1).getD "other"⟩)

/-- One record of the legacy manager
(src/utils/translation_data_manager.py): english, chinese, category,
subcategory. -/
structure LegacyRecord where
  english : String
  chinese : String
  category : String
  subcategory : String
deriving Repr, DecidableEq

/-- In-memory state of the legacy TranslationDataManager: the flat
lookup dict, the ordered record list, and the per-category dicts (keys
created on demand). -/
structure LegacyTDM where
  translation_data : List (String × String)
  translation_records : List LegacyRecord
  translation_by_category : List (String × List (String × String))
deriving Repr, DecidableEq

/-- The empty legacy manager. -/
def legacyEmpty : LegacyTDM := ⟨[], [], []⟩

/-- Legacy get_translation: exact dict lookup, no stripping. -/
def legacyGet (m : LegacyTDM) (english : String) : Option String :=
  lookupP m.translation_data english

/-- Replace the first record with the given english key, or append a new
record (the update-or-append loop of the legacy add_translation). -/
def legacyUpdateRecords (rs : List LegacyRecord) (r : LegacyRecord) : List LegacyRecord :=
  if rs.any (fun q => q.english = r.english) then
    rs.map (fun q => if q.english = r.english then r else q)
  else rs ++ [r]

/-- Insert into the legacy per-category dicts, creating the category key
on demand. -/
def legacyCatInsert (bc : List (String × List (String × String))) (cat k v : String) :
    List (String × List (String × String)) :=
  if bc.any (fun p => p.1 = cat) then
    bc.map (fun p => if p.1 = cat then (p.1, insertP p.2 k v) else p)
  else bc ++ [(cat, [(k, v)])]

/-- Legacy add_translation with its guards: reject summary-like keys
(more than one greater-than character, or longer than 200 characters);
then require both strings nonempty, nonblank after strip, and different;
then require the stripped lower-cased strings to differ; only then
mutate all three structures (the file save is I/O, outside the state). -/
def legacyAdd (m : LegacyTDM) (english chinese category subcategory : String) : LegacyTDM :=
  if 1 < pyCountChar english '>' ∨ 200 < english.length then m
  else if english ≠ "" ∧ chinese ≠ "" ∧ pyStrip english ≠ "" ∧ pyStrip chinese ≠ "" ∧
      english ≠ chinese then
    if pyLower (pyStrip english) ≠ pyLower (pyStrip chinese) then
      { translation_data := insertP m.translation_data english chinese
        translation_records := legacyUpdateRecords m.translation_records
          ⟨english, chinese, category, subcategory⟩
        translation_by_category := legacyCatInsert m.translation_by_category category english chinese }
    else m
  else m

/-- The fixed fragments whose presence marks a translation as poor. -/
def poorIndicators : List String :=
  ["sp.", "endophytica", "partial sequen", "16S rRNA gene", "ribosomal RNA gene"]

/-- Scan for a run of at least four ASCII letters immediately followed
by the target character: the regex four-or-more-Latin-letters-then-target
searches of the quality checker. The accumulator counts the letters of
the current run. -/
def latinRunThen (target : Char) : List Char → Nat → Bool
  | [], _ => false
  | c :: tl, k =>
    if c = target ∧ 4 ≤ k then true
    else if ('A' ≤ c ∧ c ≤ 'Z') ∨ ('a' ≤ c ∧ c ≤ 'z') then latinRunThen target tl (k + 1)
    else latinRunThen target tl 0

/-- is_poor_translation of TranslationQualityChecker: empty, or a known
incomplete fragment, or the malformed u菌, or four-plus Latin letters
right before 菌 or 属, or shorter than ten characters while containing
菌 or 属. -/
def is_poor_translation (translation : String) : Bool :=
  if translation = "" then true
  else if poorIndicators.any (fun i => strContains translation i) then true
  else if strContains translation "u菌" then true
  else if strContains translation "菌" && latinRunThen '菌' translation.data 0 then true
  else if strContains translation "属" && latinRunThen '属' translation.data 0 then true
  else if translation.length < 10 && (strContains translation "菌" || strContains translation "属") then true
  else false

/-- The hard-coded genus map of SpeciesTranslator. -/
def speciesMapping : List (String × String) :=
  [("Bacillus", "芽孢杆菌属"), ("Staphylococcus", "葡萄球菌属"), ("Escherichia", "埃希氏菌属"),
   ("Pseudomonas", "假单胞菌属"), ("Acinetobacter", "不动杆菌属"), ("Rothia", "罗氏菌属"),
   ("Aeromonas", "气单胞菌属"), ("Bacterium", "细菌")]

/-- translate_species_name of SpeciesTranslator: handle the genus-sp
form by replacing every occurrence of the sp suffix, else direct store
lookup, else translate the genus via the hard-coded map and keep or
translate the残 species part, else fall back to the map or the original
name. -/
def translate_species_name (tdm : TranslationDataManager) (species_name : String) : String :=
  if strContains species_name " sp." then
    let genus := pyReplace species_name " sp." ""
    (lookupP speciesMapping genus).getD genus ++ " sp."
  else
    let t := (get_translation tdm species_name).getD ""
    if t ≠ "" then t
    else
      let parts := pySplitLit species_name " "
      if strContains species_name " " ∧ 2 ≤ parts.length then
        let genus := parts.headD ""
        let species := String.intercalate " " parts.tail
        let genusT := (lookupP speciesMapping genus).getD genus
        if genus ≠ genusT then
          let speciesT := (get_translation tdm species).getD ""
          if speciesT ≠ "" then genusT ++ " " ++ speciesT else genusT ++ " " ++ species
        else (lookupP speciesMapping species_name).getD species_name
      else (lookupP speciesMapping species_name).getD species_name

/-- The fixed phrase table of translate_remaining_text. -/
def remainingTermMapping : List (String × String) :=
  [("16S ribosomal RNA gene", "16S核糖体RNA基因"), ("16S ribosomal RNA", "16S核糖体RNA"),
   ("partial sequence", "部分序列"), ("complete genome", "完整基因组"),
   ("rRNA gene", "核糖体RNA基因"), ("gene", "基因"), ("RNA", "核糖体RNA")]

/-- translate_remaining_text of SpecialPatternTranslator: exact phrase
table hit, else truthy store lookup, else if the text contains a
comma-space, translate each comma-space piece independently (keeping
untranslatable pieces verbatim), else return the text unchanged. -/
def translate_remaining_text (tdm : TranslationDataManager) (text : String) : String :=
  match lookupP remainingTermMapping text with
  | some v => v
  | none =>
    let d := (get_translation tdm text).getD ""
    if d ≠ "" then d
    else if strContains text ", " then
      String.intercalate ", " ((pySplitLit text ", ").map (fun part =>
        match lookupP remainingTermMapping part with
        | some v => v
        | none =>
          let pt := (get_translation tdm part).getD ""
          if pt ≠ "" then pt else part))
    else text

/-- translate_strain_name: truthy store lookup, else replace a leading
strain prefix (case-insensitively) by 菌株 and the stripped identifier,
else return the name unchanged. -/
def translate_strain_name (tdm : TranslationDataManager) (strain_name : String) : String :=
  let t := (get_translation tdm strain_name).getD ""
  if t ≠ "" then t
  else if pyStartsWith (pyLower strain_name) "strain" then
    "菌株 " ++ pyStrip (pyDrop strain_name 6)
  else strain_name

/-- translate_isolate_name: as translate_strain_name with the isolate
prefix and 分离株. -/
def translate_isolate_name (tdm : TranslationDataManager) (isolate_name : String) : String :=
  let t := (get_translation tdm isolate_name).getD ""
  if t ≠ "" then t
  else if pyStartsWith (pyLower isolate_name) "isolate" then
    "分离株 " ++ pyStrip (pyDrop isolate_name 7)
  else isolate_name

/-- translate_clone_name: as translate_strain_name with the clone prefix
and 克隆. -/
def translate_clone_name (tdm : TranslationDataManager) (clone_name : String) : String :=
  let t := (get_translation tdm clone_name).getD ""
  if t ≠ "" then t
  else if pyStartsWith (pyLower clone_name) "clone" then
    "克隆 " ++ pyStrip (pyDrop clone_name 5)
  else clone_name

/-- The slot names of the special patterns. -/
inductive Slot where
  | uncultured : Slot
  | species : Slot
  | strain : Slot
  | gene : Slot
  | isolate : Slot
  | clone : Slot
  | remaining : Slot
deriving Repr, DecidableEq

/-- The special pattern table of translate_special_patterns: each regex
with its ordered group names. -/
def specialPatterns : List (RE × List Slot) :=
  [(spPat1, [Slot.species, Slot.strain, Slot.remaining]),
   (spPat2, [Slot.species, Slot.gene, Slot.isolate]),
   (spPat3, [Slot.species, Slot.strain, Slot.remaining]),
   (spPat4, [Slot.uncultured, Slot.species, Slot.clone, Slot.remaining])]

/-- Translation of one captured slot value, per the group-name branches
of translate_special_patterns (the species-translator import succeeds in
this repository, so the species fallback is translate_species_name). -/
def slotTranslate (tdm : TranslationDataManager) (s : Slot) (g : String) : String :=
  match s with
  | Slot.species =>
    let t := (get_translation tdm g).getD ""
    if t ≠ "" then t else translate_species_name tdm g
  | Slot.gene =>
    let t := (get_translation tdm g).getD ""
    if t ≠ "" then t else translate_remaining_text tdm g
  | Slot.strain => translate_strain_name tdm g
  | Slot.isolate => translate_isolate_name tdm g
  | Slot.clone => translate_clone_name tdm g
  | Slot.uncultured => "未培养"
  | Slot.remaining => translate_remaining_text tdm g

/-- The translations dict built for one matched pattern: a slot is
recorded only when its captured group participated and is nonempty. -/
def assembleSlots (tdm : TranslationDataManager) :
    List Slot → List (Option String) → List (Slot × String)
  | [], _ => []
  | _ :: _, [] => []
  | name :: names, g :: gs =>
    match g with
    | some gv =>
      if gv ≠ "" then (name, slotTranslate tdm name gv) :: assembleSlots tdm names gs
      else assembleSlots tdm names gs
    | none => assembleSlots tdm names gs

/-- The fixed emission order of the result parts, keeping only truthy
translations. -/
def orderedParts (m : List (Slot × String)) : List String :=
  [Slot.uncultured, Slot.species, Slot.strain, Slot.gene, Slot.isolate,
   Slot.clone, Slot.remaining].filterMap (fun s =>
    match m.find? (fun p => p.1 = s) with
    | some p => if p.2 ≠ "" then some p.2 else none
    | none => none)

/-- Iteration over the special pattern table: the first anchored match
whose assembled part list is nonempty yields the space-joined, stripped
combination; otherwise the next pattern is tried, and the original text
is returned when no pattern produces parts. -/
def translateSpecialGo (tdm : TranslationDataManager) (text : String) :
    List (RE × List Slot) → String
  | [] => text
  | (re, slots) :: rest =>
    match reMatchGroups true re text slots.length with
    | some gs =>
      let parts := orderedParts (assembleSlots tdm slots gs)
      if parts ≠ [] then pyStrip (String.intercalate " " parts)
      else translateSpecialGo tdm text rest
    | none => translateSpecialGo tdm text rest

/-- translate_special_patterns of SpecialPatternTranslator. -/
def translate_special_patterns (tdm : TranslationDataManager) (text : String) : String :=
  translateSpecialGo tdm text specialPatterns

/-- All-or-nothing truthy store translation of a token list (the inner
sub-part loop of translate_common_patterns and the loops of
translate_word_by_word). -/
def allTrans (tdm : TranslationDataManager) : List String → Option (List String)
  | [] => some []
  | w :: ws =>
    let t := (get_translation tdm w).getD ""
    if t = "" then none
    else
      match allTrans tdm ws with
      | some ts => some (t :: ts)
      | none => none

/-- Translation of one captured group of a common pattern: truthy direct
lookup, else split the group on comma/whitespace runs and require every
sub-token to translate, joining with spaces. -/
def translateCommonPart (tdm : TranslationDataManager) (part : String) : Option String :=
  let t := (get_translation tdm part).getD ""
  if t ≠ "" then some t
  else
    match allTrans tdm (reSplitCommaWS part) with
    | some ts => if ts ≠ [] then some (String.intercalate " " ts) else none
    | none => none

/-- All-or-nothing translation of the group list of a common pattern. -/
def translateCommonParts (tdm : TranslationDataManager) : List String → Option (List String)
  | [] => some []
  | g :: gs =>
    match translateCommonPart tdm g with
    | some t =>
      match translateCommonParts tdm gs with
      | some ts => some (t :: ts)
      | none => none
    | none => none

/-- The common pattern table with group counts. -/
def commonPatterns : List (RE × Nat) := [(cpPat1, 4), (cpPat2, 3), (cpPat3, 3), (cpPat4, 3)]

/-- Iteration over the common pattern table: the first searched match
whose groups all translate yields the space-joined parts, otherwise the
next pattern is tried. -/
def translateCommonGo (tdm : TranslationDataManager) (text : String) :
    List (RE × Nat) → String
  | [] => text
  | (re, n) :: rest =>
    match reSearchGroups true re text n with
    | some gs =>
      match translateCommonParts tdm (gs.map (fun g => g.getD "")) with
      | some parts =>
        if parts ≠ [] then String.intercalate " " parts
        else translateCommonGo tdm text rest
      | none => translateCommonGo tdm text rest
    | none => translateCommonGo tdm text rest

/-- translate_common_patterns of BiologyTranslator. -/
def translate_common_patterns (tdm : TranslationDataManager) (text : String) : String :=
  translateCommonGo tdm text commonPatterns

/-- translate_word_by_word of BiologyTranslator: translate every
whitespace token (all-or-nothing, returning the original on the first
failure); only when the token list is empty, fall through to the
comma/whitespace phrase split with the same all-or-nothing rule. -/
def translate_word_by_word (tdm : TranslationDataManager) (text : String) : String :=
  let words := pySplitWS text
  match words with
  | _ :: _ =>
    match allTrans tdm words with
    | some ts => String.intercalate " " ts
    | none => text
  | [] =>
    match allTrans tdm (reSplitCommaWS text) with
    | some ts => if ts ≠ [] then String.intercalate " " ts else text
    | none => text

/-- translate_with_local_data of BiologyTranslator: truthy direct store
hit, else the special patterns, else the common patterns, else
word-by-word, else the original text. -/
def translate_with_local_data (tdm : TranslationDataManager) (text : String) : String :=
  let d := (get_translation tdm text).getD ""
  if d ≠ "" then d
  else
    let sp := translate_special_patterns tdm text
    if sp ≠ text then sp
    else
      let cp := translate_common_patterns tdm text
      if cp ≠ text then cp
      else
        let wr := translate_word_by_word tdm text
        if wr ≠ text then wr
        else text

/-- Case-insensitive prefix test. -/
def ciIsPrefix : List Char → List Char → Bool
  | [], _ => true
  | _ :: _, [] => false
  | a :: as, b :: bs => asciiLower a = asciiLower b && ciIsPrefix as bs

/-- One position of the word-bounded case-insensitive literal search of
find_chinese_equivalent (regex backslash-b, escaped term, backslash-b):
the pattern must be a case-insensitive prefix here and both ends must sit
on word boundaries. -/
def wbHitAt (pat : List Char) (prev : Option Char) (rest : List Char) : Bool :=
  ciIsPrefix pat rest &&
    (let prevW := match prev with | some c => isWordChar c | none => false
     let firstW := match rest.head? with | some c => isWordChar c | none => false
     let m := rest.take pat.length
     let lastW := match m.getLast? with | some c => isWordChar c | none => firstW
     let nextW := match rest.drop pat.length with | c :: _ => isWordChar c | [] => false
     (prevW ≠ firstW) && (lastW ≠ nextW))

/-- Sliding word-bounded case-insensitive search. -/
def wbSearchGo (pat : List Char) : Option Char → List Char → Bool
  | prev, [] => wbHitAt pat prev []
  | prev, c :: tl => wbHitAt pat prev (c :: tl) || wbSearchGo pat (some c) tl

/-- find_chinese_equivalent of TermExtractor: truthy direct lookup, else
the first stored pair whose key equals the term case-insensitively, else
the first stored pair whose key contains the term as a word-bounded
case-insensitive substring, else the empty string. The unused
chinese-text parameter of the source is omitted. -/
def find_chinese_equivalent (tdm : TranslationDataManager) (english_term : String) : String :=
  let d := (get_translation tdm english_term).getD ""
  if d ≠ "" then d
  else
    match (get_all_terms tdm).find? (fun p => pyLower p.1 = pyLower english_term) with
    | some p => p.2
    | none =>
      match (get_all_terms tdm).find? (fun p => wbSearchGo english_term.data none p.1.data) with
      | some p => p.2
      | none => ""

/-- The species keywords of the general extraction branch. -/
def speciesKeywords : List String := ["菌", "杆菌", "球菌", "链球菌", "螺旋体", "弧菌", "假单胞菌"]

/-- The backup branch of extract_species_from_translation. -/
def extractSpeciesBackup (chinese_text : String) : String :=
  match reMatchGroups false exbPattern chinese_text 1 with
  | some (some g :: _) =>
    let candidate := pyStrip g
    if ["菌", "藻", "体"].any (fun k => strContains candidate k) then candidate else ""
  | _ => ""

/-- The general branch of extract_species_from_translation: anchored
leading-Chinese-run match filtered by the species keywords, else the
backup pattern filtered by 菌, 藻 or 体. -/
def extractSpeciesGeneral (chinese_text : String) : String :=
  match reMatchGroups false exsPattern chinese_text 1 with
  | some (some g :: _) =>
    let candidate := pyStrip g
    if speciesKeywords.any (fun k => strContains candidate k) then candidate
    else extractSpeciesBackup chinese_text
  | _ => extractSpeciesBackup chinese_text

/-- extract_species_from_translation of TermExtractor: for uncultured
terms first try the dedicated uncultured regex, then fall through to the
general and backup branches. -/
def extract_species_from_translation (english_term chinese_text : String) : String :=
  if pyStartsWith (pyLower english_term) "uncultured" then
    match reMatchGroups false exuPattern chinese_text 1 with
    | some (some g :: _) => pyStrip g
    | _ => extractSpeciesGeneral chinese_text
  else extractSpeciesGeneral chinese_text

/-- is_valid_term_translation of TermExtractor: when the term has a
truthy stored translation the candidate must equal it exactly; otherwise
the candidate must occur inside the full translation. -/
def is_valid_term_translation (tdm : TranslationDataManager)
    (english_term chinese_term full_translation : String) : Bool :=
  let pre := (get_translation tdm english_term).getD ""
  if pre ≠ "" then pre = chinese_term
  else strContains full_translation chinese_term

/-- The candidate terms mined from the original text: all findall
matches of every extractor pattern, in pattern order then match order,
each with its term type and category tag. -/
def mineCandidates (original : String) : List (String × String × String) :=
  (extractorPatterns.map (fun p => (reFindAll true p.1 original).map (fun t => (t, p.2.1, p.2.2)))).flatten

/-- The Chinese candidate that the extractor pairs with a mined English
term: find_chinese_equivalent, with the dedicated species-extraction
override for species-typed terms when it yields something. -/
def candidateChi (tdm : TranslationDataManager) (term ttype translated : String) : String :=
  let chi0 := find_chinese_equivalent tdm term
  if ttype = "species" then
    let s := extract_species_from_translation term translated
    if s ≠ "" then s else chi0
  else chi0

/-- The candidate loop of extract_and_store_key_terms. Both store-write
paths of the source raise at run time against the package manager:
update_translation is called with four positional arguments (its
signature takes three) and the insert branch calls
add_structured_translation, a method no manager of the repository
defines; the Except error value models those exceptions. A candidate
that fails a guard or the validation is skipped without touching the
store. -/
def extGo (tdm : TranslationDataManager) (translated : String) :
    List (String × String × String) → Except Unit TranslationDataManager
  | [] => Except.ok tdm
  | (term, ttype, _cat) :: rest =>
    if term ≠ "" ∧ pyStrip term ≠ "" ∧ 1 < (pyStrip term).length then
      let chi0 := find_chinese_equivalent tdm term
      if chi0 ≠ "" ∧ pyStrip chi0 ≠ "" then
        let chi := candidateChi tdm term ttype translated
        if is_valid_term_translation tdm term chi translated then
          let ex := (get_translation tdm (pyStrip term)).getD ""
          if ex ≠ "" then
            if is_poor_translation ex ∧ ¬ is_poor_translation (pyStrip chi) then Except.error ()
            else if ttype = "species" ∧ ex.length < (pyStrip chi).length then Except.error ()
            else extGo tdm translated rest
          else Except.error ()
        else extGo tdm translated rest
      else extGo tdm translated rest
    else extGo tdm translated rest

/-- extract_and_store_key_terms of TermExtractor (with the manager and
quality checker present, as the orchestrator constructs them). -/
def extract_and_store_key_terms (tdm : TranslationDataManager)
    (original translated : String) : Except Unit TranslationDataManager :=
  extGo tdm translated (mineCandidates original)

/-- Observable outcome of one translate_text call: the returned string,
the number of remote AI invocations, and the manager state afterwards. -/
structure TransOut where
  res : String
  aiCalls : Nat
  store : TranslationDataManager
deriving Repr, DecidableEq

/-- The closing local-data block of translate_text (lines that run when
AI mode is off, or after an AI failure was handled): a changed local
result is returned with the 本地 tag, or the 本地-低质 tag when the
quality checker flags it; otherwise the original text is returned. -/
def finalLocal (tdm : TranslationDataManager) (text : String) (calls : Nat) : TransOut :=
  let lr := translate_with_local_data tdm text
  if lr ≠ text then
    ⟨(if is_poor_translation lr then "[本地-低质]" else "[本地]") ++ lr, calls, tdm⟩
  else ⟨text, calls, tdm⟩

/-- The except-branch of translate_text after a failed AI call: a
changed local result is returned with the 本地 tag; otherwise the
original text is self-mapped into the store and control falls through to
the closing local block over the updated store. -/
def aiFailFallback (tdm : TranslationDataManager) (text : String) : TransOut :=
  let lr := translate_with_local_data tdm text
  if lr ≠ text then ⟨"[本地]" ++ lr, 1, tdm⟩
  else finalLocal (add_translation tdm text text "other") text 1

/-- translate_text of BiologyTranslator with AI mode modelled by a flag
and the single remote call outcome passed as an Except value. Empty text
returns immediately. With AI enabled, a changed local result containing
菌 that the quality checker does not flag is returned at once with the
本地 tag and no AI call; otherwise the AI outcome is consumed: on
success the extractor runs inside the same try block (its exception is
caught as an AI failure) and the result carries the AI tag; on any
failure the fallback runs. Without AI the closing local block runs. -/
def translate_text (tdm : TranslationDataManager) (useAI : Bool)
    (ai : Except String String) (text : String) : TransOut :=
  if text = "" then ⟨text, 0, tdm⟩
  else if useAI then
    let lr := translate_with_local_data tdm text
    if lr ≠ text ∧ strContains lr "菌" ∧ is_poor_translation lr = false then
      ⟨"[本地]" ++ lr, 0, tdm⟩
    else
      match ai with
      | Except.ok result =>
        match extract_and_store_key_terms tdm text result with
        | Except.ok tdm2 => ⟨"[AI]" ++ result, 1, tdm2⟩
        | Except.error _ => aiFailFallback tdm text
      | Except.error _ => aiFailFallback tdm text
  else finalLocal tdm text 0

theorem isPyWS_asciiLower (c : Char) : isPyWS (asciiLower c) = isPyWS c := by
  unfold asciiLower
  by_cases h1 : c = 'A'
  · subst h1; rfl
  rw [if_neg h1]
  by_cases h2 : c = 'B'
  · subst h2; rfl
  rw [if_neg h2]
  by_cases h3 : c = 'C'
  · subst h3; rfl
  rw [if_neg h3]
  by_cases h4 : c = 'D'
  · subst h4; rfl
  rw [if_neg h4]
  by_cases h5 : c = 'E'
  · subst h5; rfl
  rw [if_neg h5]
  by_cases h6 : c = 'F'
  · subst h6; rfl
  rw [if_neg h6]
  by_cases h7 : c = 'G'
  · subst h7; rfl
  rw [if_neg h7]
  by_cases h8 : c = 'H'
  · subst h8; rfl
  rw [if_neg h8]
  by_cases h9 : c = 'I'
  · subst h9; rfl
  rw [if_neg h9]
  by_cases h10 : c = 'J'
  · subst h10; rfl
  rw [if_neg h10]
  by_cases h11 : c = 'K'
  · subst h11; rfl
  rw [if_neg h11]
  by_cases h12 : c = 'L'
  · subst h12; rfl
  rw [if_neg h12]
  by_cases h13 : c = 'M'
  · subst h13; rfl
  rw [if_neg h13]
  by_cases h14 : c = 'N'
  · subst h14; rfl
  rw [if_neg h14]
  by_cases h15 : c = 'O'
  · subst h15; rfl
  rw [if_neg h15]
  by_cases h16 : c = 'P'
  · subst h16; rfl
  rw [if_neg h16]
  by_cases h17 : c = 'Q'
  · subst h17; rfl
  rw [if_neg h17]
  by_cases h18 : c = 'R'
  · subst h18; rfl
  rw [if_neg h18]
  by_cases h19 : c = 'S'
  · subst h19; rfl
  rw [if_neg h19]
  by_cases h20 : c = 'T'
  · subst h20; rfl
  rw [if_neg h20]
  by_cases h21 : c = 'U'
  · subst h21; rfl
  rw [if_neg h21]
  by_cases h22 : c = 'V'
  · subst h22; rfl
  rw [if_neg h22]
  by_cases h23 : c = 'W'
  · subst h23; rfl
  rw [if_neg h23]
  by_cases h24 : c = 'X'
  · subst h24; rfl
  rw [if_neg h24]
  by_cases h25 : c = 'Y'
  · subst h25; rfl
  rw [if_neg h25]
  by_cases h26 : c = 'Z'
  · subst h26; rfl
  rw [if_neg h26]


theorem dropWhile_map_asciiLower (l : List Char) :
    (l.map asciiLower).dropWhile isPyWS = (l.dropWhile isPyWS).map asciiLower := by
  induction l with
  | nil => rfl
  | cons c tl ih =>
    by_cases h : isPyWS c
    · have h2 : isPyWS (asciiLower c) = true := by rw [isPyWS_asciiLower]; exact h
      simp [List.dropWhile_cons, h, h2, ih]
    · have h2 : ¬ isPyWS (asciiLower c) = true := by rw [isPyWS_asciiLower]; simpa using h
      simp [List.dropWhile_cons, h, h2]

theorem pyStripList_map_asciiLower (l : List Char) :
    pyStripList (l.map asciiLower) = (pyStripList l).map asciiLower := by
  unfold pyStripList
  rw [dropWhile_map_asciiLower, ← List.map_reverse, dropWhile_map_asciiLower, List.map_reverse]

theorem pyStrip_pyLower (s : String) : pyStrip (pyLower s) = pyLower (pyStrip s) := by
  unfold pyStrip pyLower
  simp [pyStripList_map_asciiLower]

theorem stringData_append (s t : String) : (s ++ t).data = s.data ++ t.data := rfl

theorem dropWhile_append_single (l : List Char) :
    (l ++ [' ']).dropWhile isPyWS =
      if l.dropWhile isPyWS = [] then [] else l.dropWhile isPyWS ++ [' '] := by
  induction l with
  | nil => rfl
  | cons c tl ih =>
    by_cases h : isPyWS c
    · simp [List.dropWhile_cons, h, ih]
    · simp [List.dropWhile_cons, h]

theorem pyStripList_pad (l : List Char) :
    pyStripList (' ' :: (l ++ [' '])) = pyStripList l := by
  unfold pyStripList
  rw [show (' ' :: (l ++ [' '])).dropWhile isPyWS = (l ++ [' ']).dropWhile isPyWS from rfl]
  rw [dropWhile_append_single]
  by_cases h : l.dropWhile isPyWS = []
  · simp [h]
  · rw [if_neg h]
    have : (l.dropWhile isPyWS ++ [' ']).reverse = ' ' :: (l.dropWhile isPyWS).reverse := by
      simp
    rw [this]
    rfl

theorem pyStrip_pad (e : String) : pyStrip (" " ++ e ++ " ") = pyStrip e := by
  unfold pyStrip
  have h : (" " ++ e ++ " ").data = ' ' :: (e.data ++ [' ']) := by
    rw [stringData_append, stringData_append]
    rfl
  rw [h, pyStripList_pad]

theorem allB_insertP {α : Type} (P : String × α → Bool) (l : List (String × α))
    (k : String) (v : α) (hl : l.all P = true) (hv : P (k, v) = true) :
    (insertP l k v).all P = true := by
  induction l with
  | nil => simp [insertP, hv]
  | cons p tl ih =>
    simp only [List.all_cons, Bool.and_eq_true] at hl
    by_cases h : p.1 = k
    · simp [insertP, h, hv, hl.2]
    · simp [insertP, h, hl.1, ih hl.2]

theorem lookupP_all {α : Type} (P : String × α → Bool) (l : List (String × α))
    (k : String) (v : α) (hl : l.all P = true) (hk : lookupP l k = some v) :
    P (k, v) = true := by
  induction l with
  | nil => simp [lookupP] at hk
  | cons p tl ih =>
    simp only [List.all_cons, Bool.and_eq_true] at hl
    by_cases h : p.1 = k
    · simp only [lookupP, h, if_pos] at hk
      have : p = (k, v) := by
        cases p
        simp_all
      rw [← this]
      exact hl.1
    · simp only [lookupP, h, if_neg, ite_false] at hk
      exact ih hl.2 hk

/-- Claim C6 counterexample: the claim asserts is_poor of 芽孢杆菌属 is
False, but the translation has five characters and contains 菌 and 属,
so the under-ten-characters rule of the code makes it poor. -/
theorem C6_counterexample : is_poor_translation "芽孢杆菌属" ≠ false := by decide

/-- Claim C6 (amended): all three boundary inputs are judged poor: 芽孢
杆菌属 by the under-ten-characters rule it itself satisfies, Pseudomona菌
by the four-Latin-letters-before-菌 rule, and a菌 by the length rule. -/
theorem C6_quality_boundary :
    is_poor_translation "芽孢杆菌属" = true ∧
    is_poor_translation "Pseudomona菌" = true ∧
    is_poor_translation "a菌" = true := by decide

/-- Claim C4 counterexample: in the package manager that the translation
pipeline uses, add has no self-mapping guard, so adding foo to foo
stores the pair and get returns it instead of None. -/
theorem C4_counterexample :
    get_translation (add_translation emptyTDM "foo" "foo" "other") "foo" = some "foo" := by decide

/-- Claim C4 (amended): the rejection guards of the claim hold for the
legacy manager of src/utils/translation_data_manager.py, whose add is a
no-op whenever the english key is empty, the chinese value is empty, the
two are equal case-insensitively, or the key is summary-like (more than
one greater-than character or over 200 characters), and there the foo
self-mapping leaves get foo at None; the package manager of
src/utils/translation/translation_data_manager.py rejects only a blank
english or chinese text. -/
theorem C4_legacy_guards :
    (∀ (m : LegacyTDM) (e c cat sub : String),
        e = "" ∨ c = "" ∨ pyLower e = pyLower c ∨ 1 < pyCountChar e '>' ∨ 200 < e.length →
        legacyAdd m e c cat sub = m) ∧
    legacyGet (legacyAdd legacyEmpty "foo" "foo" "other" "") "foo" = none ∧
    (∀ (m : TranslationDataManager) (e c cat : String),
        pyStrip e = "" ∨ pyStrip c = "" → add_translation m e c cat = m) := by
  refine ⟨?_, by decide, ?_⟩
  · intro m e c cat sub h
    unfold legacyAdd
    by_cases hg : 1 < pyCountChar e '>' ∨ 200 < e.length
    · rw [if_pos hg]
    · rw [if_neg hg]
      rcases h with he | hc | hlow | hcount | hlen
      · exact if_neg (fun hK => hK.1 he)
      · exact if_neg (fun hK => hK.2.1 hc)
      · by_cases hK : e ≠ "" ∧ c ≠ "" ∧ pyStrip e ≠ "" ∧ pyStrip c ≠ "" ∧ e ≠ c
        · rw [if_pos hK]
          have heq : pyLower (pyStrip e) = pyLower (pyStrip c) := by
            rw [← pyStrip_pyLower, ← pyStrip_pyLower, hlow]
          rw [if_neg (fun hne => hne heq)]
        · rw [if_neg hK]
      · exact absurd (Or.inl hcount) hg
      · exact absurd (Or.inr hlen) hg
  · intro m e c cat h
    unfold add_translation
    rcases h with h | h
    · rw [if_neg (fun hK => hK.1 h)]
    · rw [if_neg (fun hK => hK.2 h)]

/-- Claim C4 witness: the legacy guard theorem applied at a concrete
case-insensitive self-mapping. -/
theorem C4_witness :
    legacyAdd legacyEmpty "a b" "A B" "x" "" = legacyEmpty :=
  C4_legacy_guards.1 legacyEmpty "a b" "A B" "x" ""
    (Or.inr (Or.inr (Or.inl (by decide))))

/-- Claim C10 counterexample: the claim quantifies over every english
key, but a blank key is rejected by add, so after adding a padded blank
key the lookup still returns None rather than the trimmed value. -/
theorem C10_counterexample :
    get_translation (add_translation emptyTDM " " " x " "other") "" = none := by decide

/-- Claim C10 (amended): lookup is invariant under surrounding
whitespace, and insertion of padded texts stores the trimmed pair,
provided the trimmed english and chinese texts are nonempty (add rejects
blank fields). -/
theorem C10_whitespace :
    (∀ (tdm : TranslationDataManager) (e : String),
        get_translation tdm (" " ++ e ++ " ") = get_translation tdm e) ∧
    (∀ (tdm : TranslationDataManager) (e c cat : String),
        pyStrip e ≠ "" → pyStrip c ≠ "" →
        get_translation (add_translation tdm (" " ++ e ++ " ") (" " ++ c ++ " ") cat) e =
          some (pyStrip c)) := by
  constructor
  · intro tdm e
    unfold get_translation
    rw [pyStrip_pad]
  · intro tdm e c cat h1 h2
    unfold add_translation get_translation
    rw [pyStrip_pad, pyStrip_pad]
    rw [if_pos ⟨h1, h2⟩]
    exact lookupP_insertP_self tdm.translations (pyStrip e) (pyStrip c)

/-- Claim C10 witness: the amended theorem applied at concrete texts. -/
theorem C10_witness :
    get_translation (add_translation emptyTDM " k " " v " "other") "k" = some "v" ∧
    get_translation emptyTDM (" " ++ "a" ++ " ") = get_translation emptyTDM "a" :=
  ⟨(C10_whitespace.2 emptyTDM "k" "v" "other" (by decide) (by decide)).trans (by decide),
   C10_whitespace.1 emptyTDM "a"⟩

/-- Claim C1: the code cannot perform the claimed insertion. With the
store holding Chromosome, the call on the lowercase text chromosome
mines a validated candidate pair (chromosome, 染色体), but the insert
path of the extractor calls add_structured_translation, a method that no
manager in the repository defines; the resulting AttributeError is
caught by the surrounding try block as an AI failure, so the AI result is not
returned with the AI tag, the mined pair is never stored, and the
fallback self-maps the original text instead. -/
theorem C1_code_bug_eval :
    mineCandidates "chromosome" = [("chromosome", "chromosome", "染色体")] ∧
    candidateChi (add_translation emptyTDM "Chromosome" "染色体" "other")
      "chromosome" "chromosome" "染色体" = "染色体" ∧
    is_valid_term_translation (add_translation emptyTDM "Chromosome" "染色体" "other")
      "chromosome" "染色体" "染色体" = true ∧
    extract_and_store_key_terms (add_translation emptyTDM "Chromosome" "染色体" "other")
      "chromosome" "染色体" = Except.error () ∧
    translate_text (add_translation emptyTDM "Chromosome" "染色体" "other") true
      (Except.ok "染色体") "chromosome" =
      ⟨"chromosome", 1,
        add_translation (add_translation emptyTDM "Chromosome" "染色体" "other")
          "chromosome" "chromosome" "other"⟩ ∧
    get_translation
      (translate_text (add_translation emptyTDM "Chromosome" "染色体" "other") true
        (Except.ok "染色体") "chromosome").store "chromosome" = some "chromosome" := by
  refine ⟨by decide, by decide, by decide, rfl, by decide, by decide⟩

/-- Claim C2 counterexample: with a changed, non-poor local result that
contains no 菌 character, translate_text does not short-circuit: it
makes the remote call and returns the AI result, because the code
additionally requires the local result to contain 菌. -/
theorem C2_counterexample :
    translate_with_local_data (add_translation emptyTDM "xy" "部分" "other") "xy" = "部分" ∧
    is_poor_translation "部分" = false ∧
    translate_text (add_translation emptyTDM "xy" "部分" "other") true (Except.ok "R") "xy" =
      ⟨"[AI]R", 1, add_translation emptyTDM "xy" "部分" "other"⟩ := by
  refine ⟨by decide, by decide, by decide⟩

/-- Claim C2 (amended): with AI enabled, when the local result differs
from the input, contains 菌, and is not flagged poor, translate_text
returns it immediately with the 本地 tag, zero AI calls and an
unchanged store. -/
theorem C2_local_short_circuit (tdm : TranslationDataManager) (text : String)
    (ai : Except String String)
    (h0 : text ≠ "")
    (h1 : translate_with_local_data tdm text ≠ text)
    (h2 : strContains (translate_with_local_data tdm text) "菌" = true)
    (h3 : is_poor_translation (translate_with_local_data tdm text) = false) :
    translate_text tdm true ai text =
      ⟨"[本地]" ++ translate_with_local_data tdm text, 0, tdm⟩ := by
  unfold translate_text
  rw [if_neg h0]
  rw [if_pos rfl]
  rw [if_pos ⟨h1, h2, h3⟩]

/-- Claim C2 witness: a concrete store and input satisfying the amended
hypotheses. -/
theorem C2_witness :
    translate_text (add_translation emptyTDM "bx" "金黄色葡萄球菌株系甲乙" "other") true
      (Except.ok "Z") "bx" =
      ⟨"[本地]金黄色葡萄球菌株系甲乙", 0,
        add_translation emptyTDM "bx" "金黄色葡萄球菌株系甲乙" "other"⟩ :=
  (C2_local_short_circuit (add_translation emptyTDM "bx" "金黄色葡萄球菌株系甲乙" "other")
    "bx" (Except.ok "Z") (by decide) (by decide) (by decide) (by decide)).trans (by decide)

/-- Claim C5 counterexample: the claim promises the untagged original
text back when the AI call fails and local decomposition produces
nothing, but for an input with surrounding whitespace the self-mapping
is stored trimmed, the closing local block then finds it, and the caller
receives the trimmed text with a 本地 tag instead of the unchanged
original. -/
theorem C5_counterexample :
    (translate_text emptyTDM true (Except.error "E") " a").res = "[本地]a" ∧
    (translate_text emptyTDM true (Except.error "E") " a").res ≠ " a" := by
  refine ⟨by decide, by decide⟩

/-- Claim C5 (amended): for a nonempty input equal to its own trim, a
failed AI call is never propagated: when local decomposition changes the
text the result is the 本地-tagged local result with an unchanged
store, and otherwise the original text is persisted as a self-mapped
entry and returned unchanged and untagged. -/
theorem C5_failure_fallback (tdm : TranslationDataManager) (text err : String)
    (h0 : text ≠ "") (ht : pyStrip text = text) :
    (translate_with_local_data tdm text ≠ text →
      (translate_text tdm true (Except.error err) text).res =
        "[本地]" ++ translate_with_local_data tdm text ∧
      (translate_text tdm true (Except.error err) text).store = tdm) ∧
    (translate_with_local_data tdm text = text →
      translate_text tdm true (Except.error err) text =
        ⟨text, 1, add_translation tdm text text "other"⟩ ∧
      get_translation (add_translation tdm text text "other") text = some text) := by
  constructor
  · intro hne
    unfold translate_text
    rw [if_neg h0, if_pos rfl]
    by_cases hsc : translate_with_local_data tdm text ≠ text ∧
        strContains (translate_with_local_data tdm text) "菌" = true ∧
        is_poor_translation (translate_with_local_data tdm text) = false
    · rw [if_pos hsc]
      exact ⟨rfl, rfl⟩
    · rw [if_neg hsc]
      unfold aiFailFallback
      rw [if_pos hne]
      exact ⟨rfl, rfl⟩
  · intro heq
    have hsc : ¬ (translate_with_local_data tdm text ≠ text ∧
        strContains (translate_with_local_data tdm text) "菌" = true ∧
        is_poor_translation (translate_with_local_data tdm text) = false) :=
      fun hK => hK.1 heq
    have hadd : (add_translation tdm text text "other").translations =
        insertP tdm.translations text text := by
      unfold add_translation
      rw [ht, if_pos ⟨h0, h0⟩]
    have hget : get_translation (add_translation tdm text text "other") text = some text := by
      unfold get_translation
      rw [ht, hadd]
      exact lookupP_insertP_self tdm.translations text text
    have hlocal2 : translate_with_local_data (add_translation tdm text text "other") text = text := by
      unfold translate_with_local_data
      rw [hget]
      simp [h0]
    refine ⟨?_, hget⟩
    unfold translate_text
    rw [if_neg h0, if_pos rfl, if_neg hsc]
    unfold aiFailFallback
    rw [if_neg (fun hne => hne heq)]
    unfold finalLocal
    rw [hlocal2]
    rw [if_neg (fun hne => hne rfl)]

/-- Claim C5 witness: the amended theorem applied at an untranslatable
trimmed input over the empty store. -/
theorem C5_witness :
    translate_text emptyTDM true (Except.error "E") "qq" =
      ⟨"qq", 1, add_translation emptyTDM "qq" "qq" "other"⟩ ∧
    get_translation (add_translation emptyTDM "qq" "qq" "other") "qq" = some "qq" :=
  (C5_failure_fallback emptyTDM "qq" "E" (by decide) (by decide)).2 (by decide)

/-- Claim C3 counterexample: on the empty store the first structural
pattern matches, the species slot resolves to nothing, and instead of
abandoning the pattern the translator returns a combined result that
still contains the untranslated English species text Veronia alpha. -/
theorem C3_counterexample :
    translate_special_patterns emptyTDM "Veronia alpha strain X7 partial sequence" =
      "Veronia alpha 菌株 X7 部分序列" ∧
    strContains "Veronia alpha 菌株 X7 部分序列" "Veronia alpha" = true ∧
    get_translation emptyTDM "Veronia alpha" = none := by
  refine ⟨by decide, by decide, by decide⟩

/-- Claim C3 (amended): when the first structural pattern matches and
the species slot fails to resolve (no store hit, and the species
translator falls back to the English name), the pattern is not
abandoned: a combined result is still produced and the unresolved
English species text is one of its space-joined parts. -/
theorem C3_no_abandonment (tdm : TranslationDataManager) (text sp st rem : String)
    (hm : reMatchGroups true spPat1 text 3 = some [some sp, some st, some rem])
    (hsp : sp ≠ "") (hst : st ≠ "") (hrem : rem ≠ "")
    (hget : get_translation tdm sp = none)
    (hfb : translate_species_name tdm sp = sp)
    (hstr : translate_strain_name tdm st ≠ "") :
    ∃ parts : List String,
      translate_special_patterns tdm text = pyStrip (String.intercalate " " parts) ∧
      sp ∈ parts ∧ parts ≠ [] := by
  have hslot : slotTranslate tdm Slot.species sp = sp := by
    unfold slotTranslate
    rw [hget]
    simp [hfb]
  have hassemble : assembleSlots tdm [Slot.species, Slot.strain, Slot.remaining]
      [some sp, some st, some rem] =
      [(Slot.species, sp), (Slot.strain, translate_strain_name tdm st),
       (Slot.remaining, translate_remaining_text tdm rem)] := by
    simp only [assembleSlots, if_pos hsp, if_pos hst, if_pos hrem, hslot]
    rfl
  have hparts : orderedParts (assembleSlots tdm [Slot.species, Slot.strain, Slot.remaining]
      [some sp, some st, some rem]) =
      [sp, translate_strain_name tdm st] ++
        (if translate_remaining_text tdm rem = "" then []
         else [translate_remaining_text tdm rem]) := by
    rw [hassemble]
    by_cases hr : translate_remaining_text tdm rem = ""
    · simp [orderedParts, hsp, hstr, hr]
    · simp [orderedParts, hsp, hstr, hr]
  have hne : orderedParts (assembleSlots tdm [Slot.species, Slot.strain, Slot.remaining]
      [some sp, some st, some rem]) ≠ [] := by
    rw [hparts]
    simp
  refine ⟨[sp, translate_strain_name tdm st] ++
      (if translate_remaining_text tdm rem = "" then []
       else [translate_remaining_text tdm rem]), ?_, by simp, by simp⟩
  unfold translate_special_patterns specialPatterns translateSpecialGo
  rw [show [Slot.species, Slot.strain, Slot.remaining].length = 3 from rfl, hm]
  simp only [hparts, hne]
  simp

/-- Claim C3 witness: the amended theorem applied at the concrete
unresolved-species input over the empty store. -/
theorem C3_witness :
    reMatchGroups true spPat1 "Veronia alpha strain X7 partial sequence" 3 =
      some [some "Veronia alpha", some "strain X7", some "partial sequence"] ∧
    ∃ parts : List String,
      translate_special_patterns emptyTDM "Veronia alpha strain X7 partial sequence" =
        pyStrip (String.intercalate " " parts) ∧
      "Veronia alpha" ∈ parts ∧ parts ≠ [] :=
  ⟨by decide,
   C3_no_abandonment emptyTDM "Veronia alpha strain X7 partial sequence"
     "Veronia alpha" "strain X7" "partial sequence" (by decide) (by decide) (by decide)
     (by decide) (by decide) (by decide) (by decide)⟩

/-- Claim C8: validation of a mined candidate pair. When the English
term has a truthy stored translation the candidate is accepted exactly
when it equals that stored value; otherwise it is accepted exactly when
it occurs inside the full AI translation; and a candidate that fails
validation is skipped by the extractor loop with the store untouched. -/
theorem C8_validation :
    (∀ (tdm : TranslationDataManager) (e chi full t : String),
        get_translation tdm e = some t → t ≠ "" →
        (is_valid_term_translation tdm e chi full = true ↔ chi = t)) ∧
    (∀ (tdm : TranslationDataManager) (e chi full : String),
        (get_translation tdm e).getD "" = "" →
        (is_valid_term_translation tdm e chi full = true ↔ strContains full chi = true)) ∧
    (∀ (tdm : TranslationDataManager) (translated term ttype cat : String)
        (rest : List (String × String × String)),
        is_valid_term_translation tdm term (candidateChi tdm term ttype translated)
          translated = false →
        extGo tdm translated ((term, ttype, cat) :: rest) = extGo tdm translated rest) := by
  refine ⟨?_, ?_, ?_⟩
  · intro tdm e chi full t h ht
    unfold is_valid_term_translation
    rw [h]
    simp only [Option.getD_some]
    rw [if_pos ht]
    simp [eq_comm]
  · intro tdm e chi full h
    unfold is_valid_term_translation
    rw [h]
    simp
  · intro tdm translated term ttype cat rest hv
    simp only [extGo]
    by_cases hg1 : term ≠ "" ∧ pyStrip term ≠ "" ∧ 1 < (pyStrip term).length
    · rw [if_pos hg1]
      by_cases hg2 : find_chinese_equivalent tdm term ≠ "" ∧
          pyStrip (find_chinese_equivalent tdm term) ≠ ""
      · rw [if_pos hg2]
        rw [if_neg (by simp [hv])]
      · rw [if_neg hg2]
    · rw [if_neg hg1]

/-- Claim C8 witness: both validation branches applied at concrete
stores and candidates. -/
theorem C8_witness :
    (is_valid_term_translation (add_translation emptyTDM "ab" "甲" "other") "ab" "乙" "x" = true ↔
      "乙" = "甲") ∧
    (is_valid_term_translation emptyTDM "ab" "乙" "丙乙丁" = true ↔
      strContains "丙乙丁" "乙" = true) ∧
    extGo (add_translation emptyTDM "Chromosome" "甲" "other") "丙丁"
        [("chromosome", "chromosome", "染色体")] =
      extGo (add_translation emptyTDM "Chromosome" "甲" "other") "丙丁" [] :=
  ⟨C8_validation.1 (add_translation emptyTDM "ab" "甲" "other") "ab" "乙" "x" "甲"
      (by decide) (by decide),
   C8_validation.2.1 emptyTDM "ab" "乙" "丙乙丁" (by decide),
   C8_validation.2.2 (add_translation emptyTDM "Chromosome" "甲" "other") "丙丁"
     "chromosome" "chromosome" "染色体" [] (by decide)⟩

/-- The category invariant: every recorded term category is one of the
six fixed categories. -/
def catInvariantB (tdm : TranslationDataManager) : Bool :=
  tdm.term_categories.all (fun p => sixCategories.contains p.2)

theorem normalizeCat_mem (c : String) : sixCategories.contains (normalizeCat c) = true := by
  unfold normalizeCat
  by_cases h : sixCategories.contains (pyStrip c) = true
  · rw [if_pos h]
    exact h
  · rw [if_neg h]
    decide

theorem add_translation_catInvariant (tdm : TranslationDataManager) (e c cat : String)
    (h : catInvariantB tdm = true) :
    catInvariantB (add_translation tdm e c cat) = true := by
  simp only [add_translation]
  by_cases hg : pyStrip e ≠ "" ∧ pyStrip c ≠ ""
  · rw [if_pos hg]
    exact allB_insertP _ tdm.term_categories (pyStrip e) (normalizeCat cat) h (normalizeCat_mem cat)
  · rw [if_neg hg]
    exact h

theorem loadRow_catInvariant (tdm : TranslationDataManager) (r : CsvRow)
    (h : catInvariantB tdm = true) :
    catInvariantB (loadRow tdm r) = true := by
  simp only [loadRow]
  by_cases hg : pyStrip r.english ≠ "" ∧ pyStrip r.chinese ≠ ""
  · rw [if_pos hg]
    by_cases hc : sixCategories.contains
        (if pyStrip r.category = "" then "other" else pyStrip r.category) = true
    · rw [if_pos hc]
      exact allB_insertP (fun p => sixCategories.contains p.2) tdm.term_categories
        (pyStrip r.english)
        (if pyStrip r.category = "" then "other" else pyStrip r.category) h hc
    · rw [if_neg hc]
      exact allB_insertP (fun p => sixCategories.contains p.2) tdm.term_categories
        (pyStrip r.english) "other" h rfl
  · rw [if_neg hg]
    exact h

theorem loadPredefRow_catInvariant (tdm : TranslationDataManager) (r : CsvRow)
    (h : catInvariantB tdm = true) :
    catInvariantB (loadPredefRow tdm r) = true := by
  simp only [loadPredefRow]
  by_cases hg : pyStrip r.english ≠ "" ∧ pyStrip r.chinese ≠ ""
  · rw [if_pos hg]
    by_cases ha : lookupP tdm.translations (pyStrip r.english) = none
    · rw [if_pos ha]
      by_cases hc : sixCategories.contains
          (if pyStrip r.category = "" then "other" else pyStrip r.category) = true
      · rw [if_pos hc]
        exact allB_insertP (fun p => sixCategories.contains p.2) tdm.term_categories
          (pyStrip r.english)
          (if pyStrip r.category = "" then "other" else pyStrip r.category) h hc
      · rw [if_neg hc]
        exact allB_insertP (fun p => sixCategories.contains p.2) tdm.term_categories
          (pyStrip r.english) "other" h rfl
    · rw [if_neg ha]
      exact h
  · rw [if_neg hg]
    exact h

theorem foldl_loadRow_catInvariant (rows : List CsvRow) :
    ∀ tdm : TranslationDataManager, catInvariantB tdm = true →
    catInvariantB (rows.foldl loadRow tdm) = true := by
  induction rows with
  | nil => intro tdm h; exact h
  | cons r tl ih =>
    intro tdm h
    exact ih (loadRow tdm r) (loadRow_catInvariant tdm r h)

theorem foldl_loadPredefRow_catInvariant (rows : List CsvRow) :
    ∀ tdm : TranslationDataManager, catInvariantB tdm = true →
    catInvariantB (rows.foldl loadPredefRow tdm) = true := by
  induction rows with
  | nil => intro tdm h; exact h
  | cons r tl ih =>
    intro tdm h
    exact ih (loadPredefRow tdm r) (loadPredefRow_catInvariant tdm r h)

/-- Claim C9: every category the store records is one of the six fixed
categories: the invariant holds after the constructor load (user file
plus seed merge), is preserved by add and by update (which is add),
add coerces every non-member category — including the extractor's
isolate, clone, genome, plasmid and chromosome term types, all of which
appear in the extractor pattern table — to other, and every user-entry
row emitted by save carries a six-set category. -/
theorem C9_six_categories :
    (∀ userRows seedRows : List CsvRow, catInvariantB (initStore userRows seedRows) = true) ∧
    (∀ (tdm : TranslationDataManager) (e c cat : String), catInvariantB tdm = true →
        catInvariantB (add_translation tdm e c cat) = true) ∧
    (∀ (tdm : TranslationDataManager) (e c cat : String),
        update_translation tdm e c cat = add_translation tdm e c cat) ∧
    (["isolate", "clone", "genome", "plasmid", "chromosome"].all
        (fun cat => normalizeCat cat = "other") = true) ∧
    (∀ cat, cat ∈ ["isolate", "clone", "genome", "plasmid", "chromosome"] →
        (extractorPatterns.map (fun p => p.2.1)).contains cat = true) ∧
    (∀ (tdm : TranslationDataManager) (seedRows : List CsvRow) (r : CsvRow),
        catInvariantB tdm = true →
        r ∈ (save_translations tdm seedRows).drop (seedEmittedRows seedRows).length →
        sixCategories.contains r.category = true) := by
  refine ⟨?_, add_translation_catInvariant, fun _ _ _ _ => rfl, by decide, by decide, ?_⟩
  · intro userRows seedRows
    exact foldl_loadPredefRow_catInvariant seedRows (userRows.foldl loadRow emptyTDM)
      (foldl_loadRow_catInvariant userRows emptyTDM (by decide))
  · intro tdm seedRows r hinv hr
    simp only [save_translations] at hr
    rw [List.drop_left] at hr
    rw [List.mem_filterMap] at hr
    obtain ⟨p, hp, hf⟩ := hr
    by_cases hw : ((seedEmittedRows seedRows).map (fun q => q.english)).contains p.1 = true
    · rw [if_pos hw] at hf
      cases hf
    · rw [if_neg hw] at hf
      have hcat : r.category = (lookupP tdm.term_categories p.1).getD "other" := by
        cases hf
        rfl
      rw [hcat]
      cases hlook : lookupP tdm.term_categories p.1 with
      | none => decide
      | some v =>
        simp only [Option.getD_some]
        exact lookupP_all _ tdm.term_categories p.1 v hinv hlook

/-- Claim C9 witness: the preservation conjunct applied at a concrete
extractor category. -/
theorem C9_witness :
    catInvariantB (add_translation emptyTDM "a" "b" "isolate") = true ∧
    lookupP (add_translation emptyTDM "a" "b" "isolate").term_categories "a" = some "other" :=
  ⟨C9_six_categories.2.1 emptyTDM "a" "b" "isolate" (by decide), by decide⟩

theorem loadPredefRow_preserves (tdm : TranslationDataManager) (r : CsvRow)
    (k : String) (v : String) (h : lookupP tdm.translations k = some v) :
    lookupP (loadPredefRow tdm r).translations k = some v := by
  simp only [loadPredefRow]
  by_cases h1 : pyStrip r.english ≠ "" ∧ pyStrip r.chinese ≠ ""
  · rw [if_pos h1]
    by_cases h2 : lookupP tdm.translations (pyStrip r.english) = none
    · rw [if_pos h2]
      have hne : pyStrip r.english ≠ k := by
        intro hk
        rw [hk, h] at h2
        cases h2
      show lookupP (insertP tdm.translations (pyStrip r.english) (pyStrip r.chinese)) k = some v
      rw [lookupP_insertP_ne tdm.translations (pyStrip r.english) k (pyStrip r.chinese) hne]
      exact h
    · rw [if_neg h2]
      exact h
  · rw [if_neg h1]
    exact h

theorem load_predefined_preserves (rows : List CsvRow) :
    ∀ (tdm : TranslationDataManager) (k v : String),
    lookupP tdm.translations k = some v →
    lookupP (load_predefined_terms tdm rows).translations k = some v := by
  induction rows with
  | nil => intro tdm k v h; exact h
  | cons r tl ih =>
    intro tdm k v h
    exact ih (loadPredefRow tdm r) k v (loadPredefRow_preserves tdm r k v h)

theorem load_predefined_new (rows : List CsvRow) :
    ∀ (tdm : TranslationDataManager) (k v : String),
    lookupP tdm.translations k = none →
    lookupP (load_predefined_terms tdm rows).translations k = some v →
    ∃ r ∈ rows, pyStrip r.english = k ∧ pyStrip r.chinese = v := by
  induction rows with
  | nil =>
    intro tdm k v h0 h1
    rw [show load_predefined_terms tdm [] = tdm from rfl] at h1
    rw [h0] at h1
    cases h1
  | cons r tl ih =>
    intro tdm k v h0 h1
    by_cases hm : lookupP (loadPredefRow tdm r).translations k = none
    · obtain ⟨r', hr', he, hc⟩ := ih (loadPredefRow tdm r) k v hm h1
      exact ⟨r', List.mem_cons_of_mem r hr', he, hc⟩
    · obtain ⟨w, hw⟩ := Option.ne_none_iff_exists'.mp hm
      have hfin : lookupP (load_predefined_terms (loadPredefRow tdm r) tl).translations k = some w :=
        load_predefined_preserves tl (loadPredefRow tdm r) k w hw
      have hvw : w = v := by
        have := hfin.symm.trans h1
        cases this
        rfl
      subst hvw
      refine ⟨r, List.mem_cons_self r tl, ?_⟩
      revert hw
      simp only [loadPredefRow]
      by_cases h1g : pyStrip r.english ≠ "" ∧ pyStrip r.chinese ≠ ""
      · rw [if_pos h1g]
        by_cases h2g : lookupP tdm.translations (pyStrip r.english) = none
        · rw [if_pos h2g]
          intro hw
          by_cases hek : pyStrip r.english = k
          · constructor
            · exact hek
            · rw [← hek] at hw
              rw [lookupP_insertP_self tdm.translations (pyStrip r.english) (pyStrip r.chinese)] at hw
              cases hw
              rfl
          · rw [lookupP_insertP_ne tdm.translations (pyStrip r.english) k (pyStrip r.chinese) hek] at hw
            rw [h0] at hw
            cases hw
        · rw [if_neg h2g]
          intro hw
          rw [h0] at hw
          cases hw
      · rw [if_neg h1g]
        intro hw
        rw [h0] at hw
        cases hw

/-- Claim C7: user-file entries win over the seed file, seed entries
fill only genuinely absent keys, and save re-emits the predefined rows
first while suppressing any in-memory entry whose key is a seed key, so
the seed vocabulary rows lead the output file unmodified. -/
theorem C7_seed_precedence :
    (∀ (userRows seedRows : List CsvRow) (k v : String),
        lookupP (load_translations userRows).translations k = some v →
        lookupP (initStore userRows seedRows).translations k = some v) ∧
    (∀ (userRows seedRows : List CsvRow) (k v : String),
        lookupP (load_translations userRows).translations k = none →
        lookupP (initStore userRows seedRows).translations k = some v →
        ∃ r ∈ seedRows, pyStrip r.english = k ∧ pyStrip r.chinese = v) ∧
    (∀ (tdm : TranslationDataManager) (seedRows : List CsvRow),
        ∃ userOut : List CsvRow,
          save_translations tdm seedRows = seedEmittedRows seedRows ++ userOut ∧
          ∀ r ∈ userOut,
            ((seedEmittedRows seedRows).map (fun q => q.english)).contains r.english = false) := by
  refine ⟨?_, ?_, ?_⟩
  · intro userRows seedRows k v h
    exact load_predefined_preserves seedRows (load_translations userRows) k v h
  · intro userRows seedRows k v h0 h1
    exact load_predefined_new seedRows (load_translations userRows) k v h0 h1
  · intro tdm seedRows
    refine ⟨_, rfl, ?_⟩
    intro r hr
    rw [List.mem_filterMap] at hr
    obtain ⟨p, hp, hf⟩ := hr
    by_cases hw : ((seedEmittedRows seedRows).map (fun q => q.english)).contains p.1 = true
    · rw [if_pos hw] at hf
      cases hf
    · rw [if_neg hw] at hf
      have : r.english = p.1 := by
        cases hf
        rfl
      rw [this]
      simpa using hw

/-- Claim C7 witness: precedence and fill-if-absent applied at concrete
user and seed rows with a conflicting key. -/
theorem C7_witness :
    lookupP (initStore [⟨"Bacillus", "xyz", "species"⟩]
        [⟨"Bacillus", "芽孢杆菌", "species"⟩, ⟨"Ecoli", "大肠杆菌", "species"⟩]).translations
      "Bacillus" = some "xyz" ∧
    (∃ r ∈ [(⟨"Bacillus", "芽孢杆菌", "species"⟩ : CsvRow), ⟨"Ecoli", "大肠杆菌", "species"⟩],
      pyStrip r.english = "Ecoli" ∧ pyStrip r.chinese = "大肠杆菌") :=
  ⟨C7_seed_precedence.1 [⟨"Bacillus", "xyz", "species"⟩]
      [⟨"Bacillus", "芽孢杆菌", "species"⟩, ⟨"Ecoli", "大肠杆菌", "species"⟩]
      "Bacillus" "xyz" (by decide),
   C7_seed_precedence.2.1 [⟨"Bacillus", "xyz", "species"⟩]
      [⟨"Bacillus", "芽孢杆菌", "species"⟩, ⟨"Ecoli", "大肠杆菌", "species"⟩]
      "Ecoli" "大肠杆菌" (by decide) (by decide)⟩
